import Mathlib

/-!
Verification development for the CrawlMCP repository.

The heart of the repository is `removeUnwantedElements` in `src/index.ts`:
a do-while loop that repeatedly applies a fixed sequence of JavaScript
`String.replaceAll` regex rewrites to an HTML string until the string stops
changing.  We embed that function faithfully: each of the twelve rewrite
rules of the loop body is rendered as a matcher over `List Char` with the
exact semantics of its regex (leftmost match, greedy/lazy quantifiers,
case-insensitivity where the `i` flag is present, no rescanning of
replacement text), and the outer loop is rendered with explicit fuel,
returning `none` when the fuel is exhausted before a fixed point is reached.

The enumeration and index-validation logic of `getTargets`, `listPages`
and `getHtmlContent` is embedded as pure functions over a model of the
Chrome DevTools target list.
-/

/-! ### Character classes and scanning utilities -/

/-- The `<` character. -/
def ltCh : Char := Char.ofNat 60

/-- The `>` character. -/
def gtCh : Char := Char.ofNat 62

/-- The double-quote character. -/
def dqCh : Char := Char.ofNat 34

/-- The single-quote character. -/
def sqCh : Char := Char.ofNat 39

/-- The space character. -/
def spCh : Char := Char.ofNat 32

/-- The `/` character. -/
def slashCh : Char := Char.ofNat 47

/-- The `=` character. -/
def eqCh : Char := Char.ofNat 61

/-- The `;` character. -/
def semiCh : Char := Char.ofNat 59

/-- The `)` character. -/
def rparCh : Char := Char.ofNat 41

/-- The `-` character. -/
def dashCh : Char := Char.ofNat 45

/-- A character matched by the regex class `["']`. -/
def isQuote (c : Char) : Bool := c = dqCh || c = sqCh

/-- ASCII letter, as matched by `[a-z]` under the `i` flag. -/
def isAsciiAlpha (c : Char) : Bool :=
  (Char.ofNat 97 ≤ c && c ≤ Char.ofNat 122) || (Char.ofNat 65 ≤ c && c ≤ Char.ofNat 90)

/-- ASCII digit. -/
def isAsciiDigit (c : Char) : Bool := Char.ofNat 48 ≤ c && c ≤ Char.ofNat 57

/-- ASCII letter or digit, as matched by `[a-z0-9]` under the `i` flag. -/
def isAsciiAlnum (c : Char) : Bool := isAsciiAlpha c || isAsciiDigit c

/-- A character of the regex class `[A-Za-z0-9+/=]` (base64 alphabet). -/
def isB64 (c : Char) : Bool :=
  isAsciiAlnum c || c = Char.ofNat 43 || c = slashCh || c = eqCh

/-- JavaScript `\s`: space, tab, LF, VT, FF, CR, NBSP and the Unicode
whitespace code points, including the zero-width BOM U+FEFF. -/
def isJsSpace (c : Char) : Bool :=
  c = spCh || c = Char.ofNat 9 || c = Char.ofNat 10 || c = Char.ofNat 11 ||
  c = Char.ofNat 12 || c = Char.ofNat 13 || c = Char.ofNat 160 ||
  c = Char.ofNat 5760 || (Char.ofNat 8192 ≤ c && c ≤ Char.ofNat 8202) ||
  c = Char.ofNat 8232 || c = Char.ofNat 8233 || c = Char.ofNat 8239 ||
  c = Char.ofNat 8287 || c = Char.ofNat 12288 || c = Char.ofNat 65279

/-- ASCII lowering, matching the canonicalisation JavaScript applies for
the `i` flag of a non-Unicode regex on ASCII pattern characters. -/
def lowerCh (c : Char) : Char :=
  if Char.ofNat 65 ≤ c && c ≤ Char.ofNat 90 then Char.ofNat (c.toNat + 32) else c

/-- Case-insensitive literal match: if `s` starts with pattern `p`
(compared after ASCII lowering), return the number of characters matched. -/
def matchLitCI : List Char → List Char → Option Nat
  | [], _ => some 0
  | _ :: _, [] => none
  | p :: ps, c :: cs =>
    if lowerCh c = lowerCh p then (matchLitCI ps cs).map (fun n => n + 1) else none

/-- Case-sensitive literal match. -/
def matchLitCS : List Char → List Char → Option Nat
  | [], _ => some 0
  | _ :: _, [] => none
  | p :: ps, c :: cs =>
    if c = p then (matchLitCS ps cs).map (fun n => n + 1) else none

/-- Semantics of `[^>]*>`: consume up to and including the first `>`.
Deterministic because the greedy class cannot contain `>`. -/
def upToGt : List Char → Option Nat
  | [] => none
  | c :: cs => if c = gtCh then some 1 else (upToGt cs).map (fun n => n + 1)

/-- Semantics of `[^"']*["']`: consume up to and including the first quote
character of either kind.  Deterministic for the same reason. -/
def upToQuote : List Char → Option Nat
  | [] => none
  | c :: cs => if isQuote c then some 1 else (upToQuote cs).map (fun n => n + 1)

/-- Semantics of `[\s\S]*?tok` for a literal `tok` under the `i` flag:
lazy scan for the first case-insensitive occurrence of `tok`, consuming
through its end. -/
def findLitCI (tok : List Char) : List Char → Option Nat
  | [] => match tok with | [] => some 0 | _ :: _ => none
  | c :: cs =>
    match matchLitCI tok (c :: cs) with
    | some n => some n
    | none => (findLitCI tok cs).map (fun n => n + 1)

/-- Backtracking helper for a greedy star: try the continuation `k` after
consuming `i` characters, for `i` from the given bound down to `0`, and
return the total number of characters consumed on the first success. -/
def greedyFrom (k : List Char → Option Nat) (s : List Char) : Nat → Option Nat
  | 0 => k s
  | i + 1 =>
    match k (s.drop (i + 1)) with
    | some n => some (i + 1 + n)
    | none => greedyFrom k s i

/-- Semantics of a greedy star `[class]*` followed by a continuation: the
star first consumes the maximal run of `ok` characters, then backtracks
one character at a time until the continuation succeeds. -/
def greedyStar (ok : Char → Bool) (k : List Char → Option Nat) (s : List Char) : Option Nat :=
  greedyFrom k s (s.takeWhile ok).length

/-! ### The twelve rewrite rules of the loop body

Each matcher takes the current suffix of the string and, when the regex
matches starting exactly at its head, returns the replacement text and the
number of characters consumed (always at least one). -/

/-- Matcher for the block-removal regexes
`/<tag[^>]*>[\s\S]*?<\/tag>/gi` (used with `head`, `script`, `style`,
`svg` and `i`): the open token, then through the first `>`, then lazily
through the first case-insensitive occurrence of the close token. -/
def matchBlock (openTok closeTok : List Char) (s : List Char) : Option (List Char × Nat) := do
  let n1 ← matchLitCI openTok s
  let n2 ← upToGt (s.drop n1)
  let n3 ← findLitCI closeTok (s.drop (n1 + n2))
  pure ([], n1 + n2 + n3)

/-- Matcher for the self-closing removal regexes `/<tag[^>]*>/gi`
(used with `meta` and `input`). -/
def matchSimple (openTok : List Char) (s : List Char) : Option (List Char × Nat) := do
  let n1 ← matchLitCI openTok s
  let n2 ← upToGt (s.drop n1)
  pure ([], n1 + n2)

/-- Continuation for `;base64,[^"']*["'][^>]*>` inside the data-image
`<img>` removal regex. -/
def imgB64Tail (u : List Char) : Option Nat := do
  let m1 ← matchLitCI (String.toList ";base64,") u
  let m2 ← upToQuote (u.drop m1)
  let m3 ← upToGt (u.drop (m1 + m2))
  pure (m1 + m2 + m3)

/-- Continuation for `src=["']data:image[^"']*;base64,[^"']*["'][^>]*>`
inside the data-image `<img>` removal regex. -/
def imgSrcTail (u : List Char) : Option Nat := do
  let m1 ← matchLitCI (String.toList "src=") u
  match u.drop m1 with
  | [] => none
  | q :: r =>
    if isQuote q then do
      let m2 ← matchLitCI (String.toList "data:image") r
      let m3 ← greedyStar (fun c => !(isQuote c)) imgB64Tail (r.drop m2)
      pure (m1 + 1 + m2 + m3)
    else none

/-- Matcher for `/<img[^>]*src=["']data:image[^"']*;base64,[^"']*["'][^>]*>/gi`:
removal of a whole `<img>` element carrying a base64 `data:image` source. -/
def matchImgData (s : List Char) : Option (List Char × Nat) := do
  let n1 ← matchLitCI (String.toList "<img") s
  let n2 ← greedyStar (fun c => !(c = gtCh)) imgSrcTail (s.drop n1)
  pure ([], n1 + n2)

/-- Matcher for `/data:image[^";)]*;base64,[A-Za-z0-9+/=]+/g` (note: this
one is case-sensitive, its flags are `g` only).  Deterministic: the star
excludes `;`, so the run ends at the first `"`, `;` or `)`, which must be
the `;` of `;base64,`. -/
def matchDataB64 (s : List Char) : Option (List Char × Nat) := do
  let n1 ← matchLitCS (String.toList "data:image") s
  let rest := s.drop n1
  let run := rest.takeWhile (fun c => !(c = dqCh || c = semiCh || c = rparCh))
  let n2 := run.length
  let n3 ← matchLitCS (String.toList ";base64,") (rest.drop n2)
  let b64 := (rest.drop (n2 + n3)).takeWhile isB64
  if b64.length = 0 then none
  else pure ([], n1 + n2 + n3 + b64.length)

/-- One match of the attribute regex: the full matched text
(`attrMatch[0]`), the lowercased name (group 1 lowercased, as the code
compares it), the value (group 2), and the number of characters consumed. -/
structure AttrMatch where
  full : List Char
  nameLower : List Char
  value : List Char
  consumed : Nat
deriving Repr, DecidableEq

/-- One attribute as matched by `/([a-z][a-z0-9-]*)\s*=\s*["']([^"']*)["']/gi`.
All the quantifier choices here are forced, so the match is deterministic. -/
def matchAttr (s : List Char) : Option AttrMatch :=
  match s with
  | [] => none
  | c :: cs =>
    if isAsciiAlpha c then
      let nameRest := cs.takeWhile (fun d => isAsciiAlnum d || d = dashCh)
      let name := c :: nameRest
      let after := cs.drop nameRest.length
      let ws1 := after.takeWhile isJsSpace
      match after.drop ws1.length with
      | [] => none
      | e :: r1 =>
        if e = eqCh then
          let ws2 := r1.takeWhile isJsSpace
          match r1.drop ws2.length with
          | [] => none
          | q :: r2 =>
            if isQuote q then
              let value := r2.takeWhile (fun d => !(isQuote d))
              match r2.drop value.length with
              | [] => none
              | q2 :: _ =>
                if isQuote q2 then
                  let full := name ++ ws1 ++ e :: ws2 ++ q :: value ++ [q2]
                  some ⟨full, name.map lowerCh, value, full.length⟩
                else none
            else none
        else none
    else none

/-- The `exec` loop over the attribute string: successive non-overlapping
leftmost matches of the attribute regex, left to right, with fuel. -/
def extractAttrsF : Nat → List Char → List AttrMatch
  | _, [] => []
  | 0, _ => []
  | n + 1, c :: cs =>
    match matchAttr (c :: cs) with
    | some a => a :: extractAttrsF n ((c :: cs).drop a.consumed)
    | none => extractAttrsF n cs

/-- All matches of the attribute regex in an attribute string, in order. -/
def extractAttrs (s : List Char) : List AttrMatch :=
  extractAttrsF s.length s

/-- The attribute allow-list of `removeUnwantedElements` in `src/index.ts`:
`new Set(["id", "href", "src"])`, consulted for every tag alike. -/
def allowedAttrs : List (List Char) :=
  [String.toList "id", String.toList "href", String.toList "src"]

/-- Matcher for the attribute-stripping rewrite
`/<([a-z][a-z0-9]*)\s+([^>]*)>/gi` with its replacer callback: the tag is
rebuilt with only the allow-listed attributes, joined by single spaces,
preserving their original text and order of first appearance. -/
def matchAttrTag (s : List Char) : Option (List Char × Nat) :=
  match s with
  | [] => none
  | c :: cs =>
    if c = ltCh then
      match cs with
      | [] => none
      | d :: ds =>
        if isAsciiAlpha d then
          let tagRest := ds.takeWhile isAsciiAlnum
          let tag := d :: tagRest
          let afterTag := ds.drop tagRest.length
          let ws := afterTag.takeWhile isJsSpace
          if ws.length = 0 then none
          else
            let afterWs := afterTag.drop ws.length
            let attrs := afterWs.takeWhile (fun e => !(e = gtCh))
            match afterWs.drop attrs.length with
            | [] => none
            | _ :: _ =>
              let kept := ((extractAttrs attrs).filter
                (fun a => allowedAttrs.contains a.nameLower)).map (fun a => a.full)
              let inner := if kept.isEmpty then [] else spCh :: List.intercalate [spCh] kept
              some (ltCh :: tag ++ inner ++ [gtCh],
                    1 + tag.length + ws.length + attrs.length + 1)
        else none
    else none

/-- Matcher for the whitespace-collapse rewrite `/>\s+</g`, replacing the
match by `><`. -/
def matchWsGap (s : List Char) : Option (List Char × Nat) :=
  match s with
  | [] => none
  | c :: cs =>
    if c = gtCh then
      let ws := cs.takeWhile isJsSpace
      if ws.length = 0 then none
      else
        match cs.drop ws.length with
        | [] => none
        | d :: _ =>
          if d = ltCh then some ([gtCh, ltCh], 1 + ws.length + 1) else none
    else none

/-- Matcher for the empty-element removal `/<([a-z][a-z0-9]*)>\s*<\/\1>/gi`:
an attribute-less open tag, optional whitespace, and the matching close
tag, compared case-insensitively as the `i` flag makes the backreference. -/
def matchEmptyPair (s : List Char) : Option (List Char × Nat) :=
  match s with
  | [] => none
  | c :: cs =>
    if c = ltCh then
      match cs with
      | [] => none
      | d :: ds =>
        if isAsciiAlpha d then
          let tagRest := ds.takeWhile isAsciiAlnum
          let tag := d :: tagRest
          let afterTag := ds.drop tagRest.length
          match afterTag with
          | [] => none
          | g :: r1 =>
            if g = gtCh then
              let ws := r1.takeWhile isJsSpace
              let r2 := r1.drop ws.length
              match matchLitCS [ltCh, slashCh] r2 with
              | none => none
              | some _ =>
                match matchLitCI tag (r2.drop 2) with
                | none => none
                | some tl =>
                  match (r2.drop 2).drop tl with
                  | [] => none
                  | g2 :: _ =>
                    if g2 = gtCh then
                      some ([], 1 + tag.length + 1 + ws.length + 2 + tl + 1)
                    else none
            else none
        else none
    else none

/-! ### `replaceAll` and the loop body -/

/-- One full `replaceAll` pass with matcher `f`, with fuel: scan left to
right, replace each leftmost match and continue after it without
rescanning the replacement, exactly as JavaScript `replaceAll` does.
Every matcher above consumes at least one character on success, so fuel
equal to the length of the string is always sufficient. -/
def rewriteAllF (f : List Char → Option (List Char × Nat)) : Nat → List Char → List Char
  | _, [] => []
  | 0, s => s
  | n + 1, c :: cs =>
    match f (c :: cs) with
    | some (r, k) => r ++ rewriteAllF f n ((c :: cs).drop k)
    | none => c :: rewriteAllF f n cs

/-- One full `replaceAll` pass with matcher `f`. -/
def rewriteAll (f : List Char → Option (List Char × Nat)) (s : List Char) : List Char :=
  rewriteAllF f s.length s

/-- The body of the do-while loop of `removeUnwantedElements` in
`src/index.ts`: the twelve `replaceAll` rewrites, in source order. -/
def onePass (s : List Char) : List Char :=
  let s1 := rewriteAll (matchBlock (String.toList "<head") (String.toList "</head>")) s
  let s2 := rewriteAll (matchBlock (String.toList "<script") (String.toList "</script>")) s1
  let s3 := rewriteAll (matchBlock (String.toList "<style") (String.toList "</style>")) s2
  let s4 := rewriteAll (matchBlock (String.toList "<svg") (String.toList "</svg>")) s3
  let s5 := rewriteAll matchImgData s4
  let s6 := rewriteAll (matchSimple (String.toList "<meta")) s5
  let s7 := rewriteAll matchDataB64 s6
  let s8 := rewriteAll (matchBlock (String.toList "<i") (String.toList "</i>")) s7
  let s9 := rewriteAll (matchSimple (String.toList "<input")) s8
  let s10 := rewriteAll matchAttrTag s9
  let s11 := rewriteAll matchWsGap s10
  rewriteAll matchEmptyPair s11

/-- The do-while loop of `removeUnwantedElements`, with explicit fuel:
run `onePass`; stop as soon as a pass leaves the string unchanged; return
`none` if the fuel runs out first. -/
def removeUnwantedElementsAux : Nat → List Char → Option (List Char)
  | 0, _ => none
  | n + 1, s =>
    let r := onePass s
    if r = s then some r else removeUnwantedElementsAux n r

/-- `removeUnwantedElements` of `src/index.ts` at the string level, with
explicit fuel for the do-while loop. -/
def removeUnwantedElements (fuel : Nat) (html : String) : Option String :=
  (removeUnwantedElementsAux fuel html.toList).map List.asString

/-- Substring test (case-sensitive), used to state the safety claims. -/
def containsTokL (tok : List Char) : List Char → Bool
  | [] => decide (tok = [])
  | c :: cs =>
    match matchLitCS tok (c :: cs) with
    | some _ => true
    | none => containsTokL tok cs

/-- Substring test at the string level. -/
def containsTok (s tok : String) : Bool := containsTokL tok.toList s.toList

/-! ### The second filter variant, modelled from the spec -/

/-- The URI scheme of a value: the lowercased text before a `:` that comes
before any `/`, `?` or `#`; `none` when the value is relative. -/
def schemeOf (v : List Char) : Option (List Char) :=
  let pre := v.takeWhile (fun c =>
    !(c = Char.ofNat 58 || c = slashCh || c = Char.ofNat 63 || c = Char.ofNat 35))
  match v.drop pre.length with
  | c :: _ => if c = Char.ofNat 58 then some (pre.map lowerCh) else none
  | [] => none

/-- Scheme allow-list check: protocol-relative values (leading `//`) are
rejected, relative values are accepted, absolute values must use one of
the allowed schemes. -/
def schemeOk (allowed : List (List Char)) (v : List Char) : Bool :=
  match matchLitCS [slashCh, slashCh] v with
  | some _ => false
  | none =>
    match schemeOf v with
    | none => true
    | some sc => allowed.contains sc

/-- A character ending an element name in the modelled filter: the tag
name must be followed by `>`, whitespace or `/`, so that (unlike the
regex variant) `i` does not match inside `img`. -/
def nameBoundary (c : Char) : Bool := c = gtCh || isJsSpace c || c = slashCh

/-- An element-name character in the modelled filter: letters, digits
and hyphens (the spec speaks of elements generally, not of a restricted
tag-name alphabet). -/
def isNameCh (c : Char) : Bool := isAsciiAlnum c || c = dashCh

/-- Subtree removal of the modelled filter (spec rule 1): an element
named `tag` (case-insensitively, at a name boundary), its open tag
through the first `>`, and everything through the first matching
`</tag>`. -/
def modelMatchSubtree (tag : List Char) (s : List Char) : Option (List Char × Nat) := do
  let n1 ← matchLitCI (ltCh :: tag) s
  match s.drop n1 with
  | [] => none
  | c :: _ =>
    if nameBoundary c then do
      let n2 ← upToGt (s.drop n1)
      let n3 ← findLitCI (ltCh :: slashCh :: tag ++ [gtCh]) (s.drop (n1 + n2))
      pure ([], n1 + n2 + n3)
    else none

/-- Element removal without a subtree in the modelled filter (spec rules
1 and 4, for `input` and `meta`): the named open tag through its `>`. -/
def modelMatchVoid (tag : List Char) (s : List Char) : Option (List Char × Nat) := do
  let n1 ← matchLitCI (ltCh :: tag) s
  match s.drop n1 with
  | [] => none
  | c :: _ =>
    if nameBoundary c then do
      let n2 ← upToGt (s.drop n1)
      pure ([], n1 + n2)
    else none

/-- A base64 data-URI payload inside an attribute value (spec rule 3):
`data:`, a run of value characters up to `;base64,`, and a non-empty
base64 run; replaced with nothing. -/
def modelMatchB64 (s : List Char) : Option (List Char × Nat) := do
  let n1 ← matchLitCI (String.toList "data:") s
  let rest := s.drop n1
  let run := rest.takeWhile (fun c => !(isQuote c || c = semiCh))
  let n2 ← matchLitCI (String.toList ";base64,") (rest.drop run.length)
  let b64 := (rest.drop (run.length + n2)).takeWhile isB64
  if b64.length = 0 then none
  else pure ([], n1 + run.length + n2 + b64.length)

/-- Is a `src` value a base64-encoded inline data payload (spec rule 2)?
It must use the `data:` scheme and carry a `;base64,` marker. -/
def isB64DataValue (v : List Char) : Bool :=
  match matchLitCI (String.toList "data:") v with
  | some _ =>
    match findLitCI (String.toList ";base64,") v with
    | some _ => true
    | none => false
  | none => false

/-- Attribute filter of the modelled filter (spec rule 5 and the scheme
restriction): `id` on every tag; `href` only on `a` with schemes http,
https, mailto; `src` and `alt` only on `img`, `src` with schemes http and
https; protocol-relative disallowed; base64 data-URI payloads excised
from the kept value (spec rule 3); a kept attribute is re-rendered as
`name="value"`. -/
def modelKeepAttr (tag : List Char) (a : AttrMatch) : Option (List Char) :=
  let value := rewriteAll modelMatchB64 a.value
  let render := a.nameLower ++ eqCh :: dqCh :: value ++ [dqCh]
  if a.nameLower = String.toList "id" then some render
  else if tag = String.toList "a" && a.nameLower = String.toList "href" &&
      schemeOk [String.toList "http", String.toList "https", String.toList "mailto"] a.value then
    some render
  else if tag = String.toList "img" && a.nameLower = String.toList "src" &&
      schemeOk [String.toList "http", String.toList "https"] a.value then
    some render
  else if tag = String.toList "img" && a.nameLower = String.toList "alt" then some render
  else none

/-- Tag rewrite of the modelled filter: an opening tag is parsed
(lower-cased name, attribute list); an image whose `src` is a base64
data payload is removed as a whole element (spec rule 2); every other
tag is rebuilt with only its allow-listed attributes, in their original
order of first appearance (spec rule 5). -/
def modelMatchTag (s : List Char) : Option (List Char × Nat) :=
  match s with
  | [] => none
  | c :: cs =>
    if c = ltCh then
      match cs with
      | [] => none
      | d :: ds =>
        if isAsciiAlpha d then
          let nr := ds.takeWhile isNameCh
          let name := (d :: nr).map lowerCh
          let afterName := ds.drop nr.length
          let region := afterName.takeWhile (fun e => !(e = gtCh))
          match afterName.drop region.length with
          | [] => none
          | _ :: _ =>
            let attrs := extractAttrs region
            let consumed := 2 + nr.length + region.length + 1
            if name = String.toList "img" &&
                attrs.any (fun a => a.nameLower = String.toList "src" && isB64DataValue a.value) then
              some ([], consumed)
            else
              let kept := attrs.filterMap (modelKeepAttr name)
              let inner := if kept.isEmpty then [] else spCh :: List.intercalate [spCh] kept
              some (ltCh :: name ++ inner ++ [gtCh], consumed)
        else none
    else none

/-- Empty-element pruning of the modelled filter (spec rule 7): an
attribute-less open tag, optional whitespace, and the case-insensitively
matching close tag; hyphenated names are elements too. -/
def modelMatchEmpty (s : List Char) : Option (List Char × Nat) :=
  match s with
  | [] => none
  | c :: cs =>
    if c = ltCh then
      match cs with
      | [] => none
      | d :: ds =>
        if isAsciiAlpha d then
          let nr := ds.takeWhile isNameCh
          let name := d :: nr
          match ds.drop nr.length with
          | [] => none
          | g :: r1 =>
            if g = gtCh then
              let ws := r1.takeWhile isJsSpace
              let r2 := r1.drop ws.length
              match matchLitCS [ltCh, slashCh] r2 with
              | none => none
              | some _ =>
                match matchLitCI name (r2.drop 2) with
                | none => none
                | some tl =>
                  match (r2.drop 2).drop tl with
                  | [] => none
                  | g2 :: _ =>
                    if g2 = gtCh then
                      some ([], 1 + name.length + 1 + ws.length + 2 + tl + 1)
                    else none
            else none
        else none
    else none

/-- One pass of the modelled filter: the spec's removals in order —
subtrees of `head`, `script`, `style`, `svg` and the decorative `i`
wrapper, the `input` and `meta` elements, then the tag rewrite (base64
image removal, attribute allow-list, scheme restriction, value
excision), whitespace collapse between tag boundaries (spec rule 6),
and empty-element pruning. -/
def modelPass (s : List Char) : List Char :=
  let s1 := rewriteAll (modelMatchSubtree (String.toList "head")) s
  let s2 := rewriteAll (modelMatchSubtree (String.toList "script")) s1
  let s3 := rewriteAll (modelMatchSubtree (String.toList "style")) s2
  let s4 := rewriteAll (modelMatchSubtree (String.toList "svg")) s3
  let s5 := rewriteAll (modelMatchSubtree (String.toList "i")) s4
  let s6 := rewriteAll (modelMatchVoid (String.toList "input")) s5
  let s7 := rewriteAll (modelMatchVoid (String.toList "meta")) s6
  let s8 := rewriteAll modelMatchTag s7
  let s9 := rewriteAll matchWsGap s8
  rewriteAll modelMatchEmpty s9

/-- The fixed-point iteration of the modelled filter, with explicit
fuel: the spec requires the full rule set reapplied until the output
stops changing. -/
def removeUnwantedElementsModelAux : Nat → List Char → Option (List Char)
  | 0, _ => none
  | n + 1, s =>
    let r := modelPass s
    if r = s then some r else removeUnwantedElementsModelAux n r

/-- Modelled from the spec: `removeUnwantedElements` of
`src/unnamed/part_000` delegates to the sanitize-html library, whose
code is not part of this repository (only the call's configuration is).
The definition therefore follows the spec's description of the Content
Filter (its rules 1 to 7 plus the scheme restriction), applied until no
further changes occur: entire subtrees rooted at head, script, style,
svg and the decorative italic wrapper are removed, as are input and
meta elements; an image whose source is a base64-encoded inline data
payload is removed as a whole element; base64 data-URI payloads are
excised from attribute values; every remaining element keeps only the
per-tag allow-listed attributes (id universally, href on anchors with
schemes http/https/mailto, src and alt on images with src schemes
http/https, protocol-relative disallowed) in original order; whitespace
directly between two tag boundaries is collapsed; and attribute-less
empty elements with matching open and close tags are pruned. -/
def removeUnwantedElementsModel (fuel : Nat) (html : String) : Option String :=
  (removeUnwantedElementsModelAux fuel html.toList).map List.asString

/-! ### Target enumeration and index validation -/

/-- A Chrome DevTools target, as in the `CDPTarget` interface of
`src/index.ts`. -/
structure CDPTarget where
  id : String
  title : String
  url : String
  type : String
  webSocketDebuggerUrl : Option String
deriving Repr, DecidableEq

/-- The pure part of `getTargets` in `src/index.ts`: given the list the
debugging endpoint returned, keep only targets of type `"page"`. -/
def getTargets (targets : List CDPTarget) : List CDPTarget :=
  targets.filter (fun t => t.type == "page")

/-- One entry of the `listPages` result. -/
structure PageEntry where
  index : Nat
  title : String
  url : String
deriving Repr, DecidableEq

/-- The indexed map inside `listPages`:
`targets.map((t, index) => ({index, title: t.title, url: t.url}))`. -/
def listPagesAux : Nat → List CDPTarget → List PageEntry
  | _, [] => []
  | i, t :: ts => ⟨i, t.title, t.url⟩ :: listPagesAux (i + 1) ts

/-- `listPages` of `src/index.ts`, over the raw target list the endpoint
returned. -/
def listPages (targets : List CDPTarget) : List PageEntry :=
  listPagesAux 0 (getTargets targets)

/-- The error codes used by `src/index.ts` (from the MCP SDK). -/
inductive ModelErrorCode where
  | internalError
  | invalidRequest
deriving Repr, DecidableEq

/-- An `McpError` value: an error code and a message. -/
structure ModelMcpError where
  code : ModelErrorCode
  message : String
deriving Repr, DecidableEq

/-- The validation prefix of `getHtmlContent` in `src/index.ts`: filter
the raw target list, reject an empty page list, reject an out-of-range
`pageIndex` with the range-stating message, and otherwise select the
index of the target that the CDP session would be opened against. -/
def getHtmlContentCheck (targets : List CDPTarget) (pageIndex : Int) : Except ModelMcpError Nat :=
  let ts := getTargets targets
  if ts.length = 0 then
    .error ⟨.invalidRequest, "No open pages found in Chrome"⟩
  else if pageIndex < 0 ∨ (ts.length : Int) ≤ pageIndex then
    .error ⟨.invalidRequest, "Invalid page index. Available pages: 0-" ++ toString (ts.length - 1)⟩
  else
    .ok pageIndex.toNat

/-! ### Helper lemmas -/

/-- If the do-while loop of `removeUnwantedElements` returns within its
fuel, its result is a fixed point of the loop body. -/
theorem removeUnwantedElementsAux_fix :
    ∀ (n : Nat) (s o : List Char), removeUnwantedElementsAux n s = some o → onePass o = o := by
  intro n
  induction n with
  | zero => intro s o h; simp [removeUnwantedElementsAux] at h
  | succ n ih =>
    intro s o h
    simp only [removeUnwantedElementsAux] at h
    by_cases hc : onePass s = s
    · rw [if_pos hc] at h
      have h1 : onePass s = o := Option.some.inj h
      subst h1
      rw [hc]
      exact hc
    · rw [if_neg hc] at h
      exact ih _ o h

/-- The indices produced by the indexed map of `listPages` count up from
the start index. -/
theorem listPagesAux_map_index (l : List CDPTarget) :
    ∀ i, (listPagesAux i l).map PageEntry.index = List.range' i l.length := by
  induction l with
  | nil => intro i; rfl
  | cons t ts ih =>
    intro i
    simp only [listPagesAux, List.map_cons, List.length_cons, List.range'_succ]
    exact congrArg (i :: ·) (ih (i + 1))

/-- The titles and urls produced by the indexed map of `listPages` are
those of the targets, in order. -/
theorem listPagesAux_map_titleUrl (l : List CDPTarget) :
    ∀ i, (listPagesAux i l).map (fun e => (e.title, e.url)) = l.map (fun t => (t.title, t.url)) := by
  induction l with
  | nil => intro i; rfl
  | cons t ts ih =>
    intro i
    simp only [listPagesAux, List.map_cons]
    exact congrArg ((t.title, t.url) :: ·) (ih (i + 1))

/-! ### Claims -/

/-- Claim C1 (code bug): the safety invariant fails on the code of
`src/index.ts` — on the input `<iframe>x</iframe>` the filter is already
at a fixed point and returns its input unchanged, so the output contains
an unescaped `<iframe` element.  The loop body has no rule matching
`iframe` elements: the `/<i[^>]*>[\s\S]*?<\/i>/gi` rule requires a
literal `</i>` close tag, which `</iframe>` does not contain. -/
theorem iframe_passthrough :
    removeUnwantedElements 1 "<iframe>x</iframe>" = some "<iframe>x</iframe>" ∧
    containsTok "<iframe>x</iframe>" "<iframe" = true :=
  ⟨by decide, by decide⟩

/-- Claim C2 (confirmed): the filter is idempotent.  Whenever the
do-while loop returns within its fuel, the output is a fixed point of the
loop body, so re-running the filter on its own output returns the output
unchanged (any positive fuel suffices for the second run). -/
theorem sanitize_idempotent (f g : Nat) (x o : String)
    (h : removeUnwantedElements f x = some o) :
    removeUnwantedElements (g + 1) o = some o := by
  unfold removeUnwantedElements at h ⊢
  cases hl : removeUnwantedElementsAux f x.toList with
  | none => rw [hl] at h; exact absurd h (by simp)
  | some l =>
    rw [hl, Option.map_some'] at h
    have h2 : List.asString l = o := Option.some.inj h
    subst h2
    have hfix := removeUnwantedElementsAux_fix f x.toList l hl
    show (removeUnwantedElementsAux (g + 1) (List.asString l).toList).map List.asString
        = some (List.asString l)
    have htl : (List.asString l).toList = l := rfl
    rw [htl]
    simp only [removeUnwantedElementsAux]
    rw [if_pos hfix, hfix, Option.map_some']

/-- Witness for `sanitize_idempotent`: the filter terminates on `hello`
within one pass and the theorem yields the second run unchanged. -/
theorem sanitize_idempotent_witness :
    removeUnwantedElements 1 "hello" = some "hello" :=
  sanitize_idempotent 1 0 "hello" "hello" (by decide)

/-- Claim C3 counterexample: the attribute allow-list of `src/index.ts`
is not per-tag.  On `<img href="https://h" alt="a" src="https://s">` the
filter keeps `href` on an image element (the claim allows `href` only on
anchors) and drops `alt` (the claim allows `alt` on images). -/
theorem attr_allowlist_counterexample :
    removeUnwantedElements 2 "<img href=\"https://h\" alt=\"a\" src=\"https://s\">"
      = some "<img href=\"https://h\" src=\"https://s\">" ∧
    containsTok "<img href=\"https://h\" src=\"https://s\">" "href=" = true ∧
    containsTok "<img href=\"https://h\" src=\"https://s\">" "alt" = false :=
  ⟨by decide, by decide, by decide⟩

/-- Claim C3 (corrected): attribute handling uses the single allow-list
`{id, href, src}` for all tags, applied to opening tags with whitespace
after the tag name — concretely, the spec's example
`<div onclick="evil()" id="x" data-foo="y">t</div>` sanitizes to
`<div id="x">t</div>`; `<p href="https://a">t</p>` keeps `href` on a
non-anchor; and `<div/foo="x">t</div>`, whose tag name is not followed
by whitespace, is left unchanged, retaining the non-allow-listed `foo`. -/
theorem attr_allowlist_amended :
    removeUnwantedElements 2 "<div onclick=\"evil()\" id=\"x\" data-foo=\"y\">t</div>"
      = some "<div id=\"x\">t</div>" ∧
    removeUnwantedElements 2 "<p href=\"https://a\">t</p>"
      = some "<p href=\"https://a\">t</p>" ∧
    removeUnwantedElements 2 "<div/foo=\"x\">t</div>"
      = some "<div/foo=\"x\">t</div>" :=
  ⟨by decide, by decide, by decide⟩

/-- Claim C4 counterexample: `src/index.ts` applies no URI-scheme
restriction.  `<a href="javascript:evil()">x</a>` is a fixed point of the
filter: the `javascript:` href survives. -/
theorem scheme_restriction_counterexample :
    removeUnwantedElements 1 "<a href=\"javascript:evil()\">x</a>"
      = some "<a href=\"javascript:evil()\">x</a>" ∧
    containsTok "<a href=\"javascript:evil()\">x</a>" "javascript:" = true :=
  ⟨by decide, by decide⟩

/-- Claim C4 (corrected): no attribute is dropped for its scheme in
these scenarios — `<a href="https://ok">x</a>` and the protocol-relative
`<a href="//proto-relative">x</a>` are fixed points keeping their
`href`, just as the `javascript:` anchor of the counterexample is; and
the text-level rewrite can even destroy an `https:` href whose value
contains `>`: `<a href="https://a>b">t</a>` sanitizes to `<a>b">t</a>`. -/
theorem scheme_restriction_amended :
    removeUnwantedElements 1 "<a href=\"https://ok\">x</a>"
      = some "<a href=\"https://ok\">x</a>" ∧
    removeUnwantedElements 1 "<a href=\"//proto-relative\">x</a>"
      = some "<a href=\"//proto-relative\">x</a>" ∧
    removeUnwantedElements 3 "<a href=\"https://a>b\">t</a>"
      = some "<a>b\">t</a>" :=
  ⟨by decide, by decide, by decide⟩

/-- Claim C5 counterexample: a non-data image is not preserved with
exactly `src` and `alt` — the filter of `src/index.ts` drops `alt`. -/
theorem base64_img_counterexample :
    removeUnwantedElements 2 "<img src=\"https://x/y.png\" alt=\"a\">"
      = some "<img src=\"https://x/y.png\">" ∧
    containsTok "<img src=\"https://x/y.png\">" "alt" = false :=
  ⟨by decide, by decide⟩

/-- Claim C5 (corrected): the base64 image of the spec's scenario is
removed as a whole element — `a<img src="data:image/png;base64,AAAA">b`
yields `ab`, with no `<img` in the output — and a non-data image is
preserved with exactly its `src` attribute (`alt` is dropped); but the
whole-element removal fails when an earlier attribute value contains
`>`: `<img data-x=">" src="data:image/png;base64,AAAA">` leaves an
`<img` element in the output (only the payload is excised). -/
theorem base64_img_amended :
    removeUnwantedElements 2 "a<img src=\"data:image/png;base64,AAAA\">b" = some "ab" ∧
    containsTok "ab" "<img" = false ∧
    removeUnwantedElements 2 "<img src=\"https://B/c.png\" alt=\"b\">"
      = some "<img src=\"https://B/c.png\">" ∧
    removeUnwantedElements 4 "<img data-x=\">\" src=\"data:image/png;base64,AAAA\">"
      = some "<img>\" src=\"\">" ∧
    containsTok "<img>\" src=\"\">" "<img" = true :=
  ⟨by decide, by decide, by decide, by decide, by decide⟩

/-- Claim C6 counterexample: not every empty element with matching open
and close tags is removed — the empty-element regex only matches
alphanumeric tag names, so the attribute-less, content-less custom
element `<my-el></my-el>` is a fixed point of the filter. -/
theorem empty_prune_counterexample :
    removeUnwantedElements 1 "<my-el></my-el>" = some "<my-el></my-el>" ∧
    ("<my-el></my-el>" : String) ≠ "" :=
  ⟨by decide, by decide⟩

/-- Claim C6 (corrected): in the spec's scenarios the pruning and the
collapsing hold — `<span></span>` and whitespace-only `<p>   </p>`
collapse to nothing, the two-level nested `<div><span></span></div>`
collapses to nothing, and the whitespace between the tag boundaries of
`<p>a</p>   <p>b</p>` is collapsed, giving `<p>a</p><p>b</p>` — but not
for every element: a hyphenated tag name such as `<my-el></my-el>` is
not removed (see the counterexample). -/
theorem empty_prune_amended :
    removeUnwantedElements 2 "<span></span>" = some "" ∧
    removeUnwantedElements 2 "<p>   </p>" = some "" ∧
    removeUnwantedElements 3 "<div><span></span></div>" = some "" ∧
    removeUnwantedElements 3 "<p>a</p>   <p>b</p>" = some "<p>a</p><p>b</p>" :=
  ⟨by decide, by decide, by decide, by decide⟩

/-- Claim C8 (confirmed): `getTargets` keeps exactly the targets of type
`page` — it is the filter of the raw list, hence a sublist preserving the
original relative order — and `listPages` renders them as
`{index, title, url}` with `index` the position in the filtered list
starting at 0; on targets of kinds `[page, other, page]` it returns two
entries indexed 0 and 1 in the original order, skipping the non-page. -/
theorem listPages_spec (ts : List CDPTarget) :
    getTargets ts = ts.filter (fun t => t.type == "page") ∧
    List.Sublist (getTargets ts) ts ∧
    (listPages ts).map PageEntry.index = List.range (getTargets ts).length ∧
    (listPages ts).map (fun e => (e.title, e.url))
      = (getTargets ts).map (fun t => (t.title, t.url)) ∧
    listPages [⟨"1", "t1", "u1", "page", none⟩, ⟨"2", "t2", "u2", "other", none⟩,
               ⟨"3", "t3", "u3", "page", none⟩]
      = [⟨0, "t1", "u1"⟩, ⟨1, "t3", "u3"⟩] := by
  refine ⟨rfl, List.filter_sublist _, ?_, ?_, by decide⟩
  · rw [List.range_eq_range']
    exact listPagesAux_map_index (getTargets ts) 0
  · exact listPagesAux_map_titleUrl (getTargets ts) 0

/-- Claim C9 (confirmed): for a non-empty page-target list of size `n`
and any `pageIndex` outside `[0, n)`, the validation prefix of
`getHtmlContent` fails with the invalid-index error whose message states
the valid range `0` to `n - 1`. -/
theorem invalid_index_error (raw : List CDPTarget) (i : Int)
    (h1 : getTargets raw ≠ [])
    (h2 : i < 0 ∨ ((getTargets raw).length : Int) ≤ i) :
    getHtmlContentCheck raw i = Except.error
      ⟨ModelErrorCode.invalidRequest,
       "Invalid page index. Available pages: 0-" ++ toString ((getTargets raw).length - 1)⟩ := by
  unfold getHtmlContentCheck
  have hlen : (getTargets raw).length ≠ 0 := by
    intro h0
    exact h1 (List.length_eq_zero.mp h0)
  rw [if_neg hlen, if_pos h2]

/-- Witness for `invalid_index_error`: against a two-target page list,
`pageIndex = 5` yields the invalid-index error stating the range 0-1. -/
theorem invalid_index_error_witness :
    getHtmlContentCheck
      [⟨"1", "t1", "u1", "page", none⟩, ⟨"2", "t2", "u2", "page", none⟩] 5
      = Except.error ⟨ModelErrorCode.invalidRequest, "Invalid page index. Available pages: 0-1"⟩ := by
  have h := invalid_index_error
    [⟨"1", "t1", "u1", "page", none⟩, ⟨"2", "t2", "u2", "page", none⟩] 5
    (by decide) (by decide)
  simpa using h

/-- Claim C10 counterexample: the two filter variants are not
equivalent.  On `<img src="https://x/y.png" alt="a">` the regex variant
of `src/index.ts` drops `alt` while the spec-modelled variant of
`src/unnamed/part_000` keeps it (the spec allows `alt` on images), so
the outputs differ. -/
theorem variant_equivalence_counterexample :
    removeUnwantedElements 2 "<img src=\"https://x/y.png\" alt=\"a\">"
      = some "<img src=\"https://x/y.png\">" ∧
    removeUnwantedElementsModel 1 "<img src=\"https://x/y.png\" alt=\"a\">"
      = some "<img src=\"https://x/y.png\" alt=\"a\">" ∧
    ("<img src=\"https://x/y.png\">" : String) ≠ "<img src=\"https://x/y.png\" alt=\"a\">" :=
  ⟨by decide, by decide, by decide⟩

/-- Claim C10 (corrected): the two variants are not equivalent, differing
on attribute retention (see the counterexample); they do agree on the
specific inputs `hello` and `<a href="https://ok2">x</a>` (both leave
them unchanged) and on `<script>a</script>` (both remove the subtree,
returning the empty string). -/
theorem variant_equivalence_amended :
    removeUnwantedElements 1 "hello" = some "hello" ∧
    removeUnwantedElementsModel 1 "hello" = some "hello" ∧
    removeUnwantedElements 1 "<a href=\"https://ok2\">x</a>"
      = some "<a href=\"https://ok2\">x</a>" ∧
    removeUnwantedElementsModel 1 "<a href=\"https://ok2\">x</a>"
      = some "<a href=\"https://ok2\">x</a>" ∧
    removeUnwantedElements 2 "<script>a</script>" = some "" ∧
    removeUnwantedElementsModel 2 "<script>a</script>" = some "" :=
  ⟨by decide, by decide, by decide, by decide, by decide, by decide⟩
